import Mathlib

/-!
Shallow embedding of the `geren-livraria` CSV import/export core.

The embedded code lives in `src/lib/validators.py`, `src/lib/mapping.py`,
`src/lib/file_manager.py` and `src/lib/db.py`.  Pure Python functions become
Lean functions; the SQLite-backed record store becomes an explicit list of
records threaded through the import loop; exceptions become `Except`.

Python value conventions used throughout:
* Python `str` is Lean `String` (both are sequences of unicode code points).
* Python `float` is modelled as `ℚ`.  Every price the program produces goes
  through `round(price, 2)`, so the values that reach rendering are exact
  multiples of `1/100`, for which the rational model is exact and
  `str(float)` (shortest round-trip representation) coincides with the
  minimal decimal form implemented below.
* `None`, strings, ints and floats are collected in the `PyVal` sum type so
  that the truthiness-based code (`a or b`, `if value:`) can be embedded
  directly.
-/

namespace Livraria

/-- The character for a decimal digit value below 10. -/
def digitChar (n : Nat) : Char := Char.ofNat (48 + n)

/-- `True` on `'0'`-`'9'`. -/
def isDigitChar (c : Char) : Bool := 48 ≤ c.toNat && c.toNat ≤ 57

/-- Numeric value of a digit character. -/
def digitVal (c : Char) : Nat := c.toNat - 48

/-- Worker for `natDigits`; the first argument is fuel, kept strictly above
the number so that the recursion is structural. -/
def natDigitsAux : Nat → Nat → List Char
  | 0, _ => []
  | fuel + 1, n =>
    if n < 10 then [digitChar n]
    else natDigitsAux fuel (n / 10) ++ [digitChar (n % 10)]

/-- Decimal digits of a natural number, most significant first.  This is the
embedding of Python `str(n)` for a nonnegative int. -/
def natDigits (n : Nat) : List Char := natDigitsAux (n + 1) n

/-- Python `str` of a nonnegative integer. -/
def natToStr (n : Nat) : String := ⟨natDigits n⟩

/-- Python `str` of an int (possibly negative). -/
def pyIntStr (n : Int) : String :=
  if n < 0 then "-" ++ natToStr n.natAbs else natToStr n.toNat

/-- Value of a digit list read in base 10 (no validity check). -/
def parseNatDigits (l : List Char) : Nat :=
  l.foldl (fun acc c => acc * 10 + digitVal c) 0

/-- Parse an unsigned decimal integer: nonempty and all digits. -/
def parsePyNat (l : List Char) : Option Nat :=
  if l.isEmpty then none
  else if l.all isDigitChar then some (parseNatDigits l)
  else none

/-- Embedding of Python `int(s)` on an already-stripped string: an optional
sign followed by decimal digits.  (Python additionally accepts underscore
separators and non-ASCII digits; the program's data never uses them.) -/
def parsePyIntChars : List Char → Option Int
  | [] => none
  | c :: rest =>
    if c = '-' then (parsePyNat rest).map (fun n => -(n : Int))
    else if c = '+' then (parsePyNat rest).map (fun n => (n : Int))
    else (parsePyNat (c :: rest)).map (fun n => (n : Int))

/-- Embedding of Python `int(s)`. -/
def parsePyInt (s : String) : Option Int := parsePyIntChars s.data

/-- Split a character list at the first `'.'`. -/
def splitAtDot : List Char → List Char × Option (List Char)
  | [] => ([], none)
  | c :: rest =>
    if c = '.' then ([], some rest)
    else
      let p := splitAtDot rest
      (c :: p.1, p.2)

/-- Unsigned part of Python `float(s)`: `digits`, `digits.digits`,
`digits.` or `.digits`. -/
def parsePyFloatUnsigned (l : List Char) : Option ℚ :=
  let p := splitAtDot l
  match p.2 with
  | none => (parsePyNat p.1).map (fun n => (n : ℚ))
  | some fp =>
    if fp.any (· == '.') then none
    else if p.1.isEmpty && fp.isEmpty then none
    else if p.1.all isDigitChar && fp.all isDigitChar then
      some ((parseNatDigits p.1 : ℚ) + (parseNatDigits fp : ℚ) / (10 : ℚ) ^ fp.length)
    else none

/-- Embedding of Python `float(s)` on plain decimal literals (optional sign,
digits, at most one point).  Scientific notation, `inf`/`nan` and underscore
separators lie outside the fragment the program's data uses. -/
def parsePyFloatChars : List Char → Option ℚ
  | [] => none
  | c :: rest =>
    if c = '-' then (parsePyFloatUnsigned rest).map (fun q => -q)
    else if c = '+' then parsePyFloatUnsigned rest
    else parsePyFloatUnsigned (c :: rest)

/-- Embedding of Python `float(s)`. -/
def parsePyFloat (s : String) : Option ℚ := parsePyFloatChars s.data

/-- Round-half-to-even to an integer, as Python's builtin `round`. -/
def roundHalfEven (q : ℚ) : ℤ :=
  let f := ⌊q⌋
  let r := q - (f : ℚ)
  if r < 1 / 2 then f
  else if 1 / 2 < r then f + 1
  else if f % 2 = 0 then f else f + 1

/-- Embedding of Python `round(x, 2)`. -/
def round2 (q : ℚ) : ℚ := (roundHalfEven (q * 100) : ℚ) / 100

/-- Fraction part (a value below 100, in hundredths) as Python `str(float)`
prints it after the point: trailing zero dropped, at least one digit. -/
def fracChars (f : Nat) : List Char :=
  if f = 0 then ['0']
  else if f % 10 = 0 then [digitChar (f / 10)]
  else if f < 10 then ['0', digitChar f]
  else [digitChar (f / 10), digitChar (f % 10)]

/-- `str(float)` for a nonnegative value holding `n` hundredths. -/
def centsStr (n : Nat) : String :=
  natToStr (n / 100) ++ "." ++ ⟨fracChars (n % 100)⟩

/-- `str(float)` of a nonnegative rational.  Exact (equal to CPython's
shortest round-trip repr) whenever the value is a whole number of
hundredths, which covers every price the program renders (they all pass
through `round(_, 2)`).  Other denominators cannot arise from the embedded
code paths; they get a marker rendering. -/
def pyFloatStrAbs (q : ℚ) : String :=
  if (q * 100).den = 1 then centsStr (q * 100).num.toNat
  else natToStr q.num.toNat ++ "/" ++ natToStr q.den

/-- `str(float)` of a rational (see `pyFloatStrAbs`). -/
def pyFloatStr (q : ℚ) : String :=
  if q < 0 then "-" ++ pyFloatStrAbs (-q) else pyFloatStrAbs q

/-- Python whitespace as stripped by `str.strip()` (ASCII fragment). -/
def isPySpace (c : Char) : Bool :=
  c == ' ' || c == '\t' || c == '\n' || c == '\r' || c == '\x0b' || c == '\x0c'

/-- `str.strip()` on a character list. -/
def pyStripChars (l : List Char) : List Char :=
  ((l.dropWhile isPySpace).reverse.dropWhile isPySpace).reverse

/-- Embedding of Python `str.strip()`. -/
def pyStrip (s : String) : String := ⟨pyStripChars s.data⟩

/-- `str.lower()` on one character: ASCII `A`-`Z` plus the Latin-1 uppercase
letters `À`-`Þ` (excluding the multiplication sign) map down by 32. -/
def pyLowerChar (c : Char) : Char :=
  if (65 ≤ c.toNat ∧ c.toNat ≤ 90) ∨
      (192 ≤ c.toNat ∧ c.toNat ≤ 222 ∧ c.toNat ≠ 215) then
    Char.ofNat (c.toNat + 32)
  else c

/-- Embedding of Python `str.lower()`. -/
def pyLower (s : String) : String := ⟨s.data.map pyLowerChar⟩

/-- Embedding of `s.replace(" ", "")`. -/
def stripSpacesStr (s : String) : String := ⟨s.data.filter (· != ' ')⟩

/-- Embedding of `s.replace(",", ".")`. -/
def commaToDot (s : String) : String :=
  ⟨s.data.map (fun c => if c = ',' then '.' else c)⟩

/-- `True` when the string contains the character. -/
def strContainsChar (s : String) (c : Char) : Bool := s.data.any (· == c)

instance {ε α : Type} [DecidableEq ε] [DecidableEq α] : DecidableEq (Except ε α) := fun x y =>
  match x, y with
  | .error a, .error b => if h : a = b then .isTrue (by rw [h]) else .isFalse (by simp [h])
  | .ok a, .ok b => if h : a = b then .isTrue (by rw [h]) else .isFalse (by simp [h])
  | .error _, .ok _ => .isFalse (by simp)
  | .ok _, .error _ => .isFalse (by simp)

/-- A Python value as the embedded code manipulates it: `None`, a string,
an int, or a float (modelled as a rational). -/
inductive PyVal : Type where
  | vnone : PyVal
  | vstr (s : String) : PyVal
  | vint (n : Int) : PyVal
  | vrat (q : ℚ) : PyVal
deriving DecidableEq, Repr

/-- Python truthiness of a `PyVal` (`bool(v)`). -/
def PyVal.truthy : PyVal → Bool
  | .vnone => false
  | .vstr s => !s.isEmpty
  | .vint n => n != 0
  | .vrat q => q != 0

/-- Python `a or b`: the first operand when truthy, otherwise the second. -/
def pyOr (a b : PyVal) : PyVal := if a.truthy then a else b

/-- Embedding of Python `str(v)`. -/
def pyStrRepr : PyVal → String
  | .vnone => "None"
  | .vstr s => s
  | .vint n => pyIntStr n
  | .vrat q => pyFloatStr q

/-- How `csv.writer` renders one field: `None` becomes the empty string,
anything else goes through `str`. -/
def csvCell : PyVal → String
  | .vnone => ""
  | v => pyStrRepr v

/-- A Python dict, represented by its item list (keys unique in dicts the
interpreter actually builds; lookup takes the last binding, matching dict
construction where a later binding overwrites an earlier one). -/
abbrev PyDict : Type := List (String × PyVal)

/-- `d.get(k, dflt)`. -/
def dictGetD (d : PyDict) (k : String) (dflt : PyVal) : PyVal :=
  match (d.filter (fun kv => kv.1 == k)).getLast? with
  | some kv => kv.2
  | none => dflt

/-- `d.get(k)` (default `None`). -/
def dictGet (d : PyDict) (k : String) : PyVal := dictGetD d k .vnone

/-- `d[k] = v` on a dict under construction: overwrite if present, else
append. -/
def dictInsert (d : PyDict) (k : String) (v : PyVal) : PyDict :=
  if d.any (fun kv => kv.1 == k) then
    d.map (fun kv => if kv.1 == k then (k, v) else kv)
  else d ++ [(k, v)]

/-- `src/lib/mapping.py` `KEY_MAP`, verbatim — including the entry mapping
`author` to `author` (not to `autor`). -/
def KEY_MAP : List (String × String) :=
  [("id", "id"),
   ("titulo", "titulo"),
   ("title", "titulo"),
   ("autor", "autor"),
   ("author", "author"),
   ("ano_publicacao", "ano_publicacao"),
   ("ano", "ano_publicacao"),
   ("year", "ano_publicacao"),
   ("preco", "preco"),
   ("price", "preco")]

/-- `mapping.KEY_MAP.get(k, k)`. -/
def keyMapGetD (k : String) : String :=
  match (KEY_MAP.filter (fun kv => kv.1 == k)).getLast? with
  | some kv => kv.2
  | none => k

/-- The canonical 5-slot row every normalizer produces:
`(id, titulo, autor, ano_publicacao, preco)`. -/
structure NormRow where
  id : PyVal
  titulo : PyVal
  autor : PyVal
  ano : PyVal
  preco : PyVal
deriving DecidableEq, Repr

/-- The Mapping arm of `validators._normalize_row`
(`src/lib/validators.py`): rewrite each key through
`KEY_MAP.get(str(k).lower(), k)` into a fresh dict, then read the five
canonical keys with `d.get`. -/
def validators_normalize_row_mapping (item : PyDict) : NormRow :=
  let d := item.foldl (fun acc kv => dictInsert acc (keyMapGetD (pyLower kv.1)) kv.2) []
  ⟨dictGet d "id", dictGet d "titulo", dictGet d "autor",
   dictGet d "ano_publicacao", dictGet d "preco"⟩

/-- A raw record in one of the shapes the claims exercise: a mapping or a
sequence.  (The attribute-object arm of the source is not needed by any
claim.) -/
inductive PyItem : Type where
  | mapping (m : PyDict) : PyItem
  | seq (l : List PyVal) : PyItem
deriving DecidableEq

/-- Positional read with `None` padding. -/
def nthVal (l : List PyVal) (i : Nat) : PyVal := (l.get? i).getD .vnone

/-- `FileManager._normalize_row` (`src/lib/file_manager.py`): the mapping
arm reads each canonical field as `item.get(canonical) or
item.get(synonym)` (truthiness-based fallback); the sequence arm is
positional with `None` padding. -/
def fm_normalize_row : PyItem → NormRow
  | .mapping item =>
    ⟨dictGet item "id",
     pyOr (dictGet item "titulo") (dictGet item "title"),
     pyOr (dictGet item "autor") (dictGet item "author"),
     pyOr (pyOr (dictGet item "ano_publicacao") (dictGet item "ano")) (dictGet item "year"),
     pyOr (dictGet item "preco") (dictGet item "price")⟩
  | .seq l =>
    if 5 ≤ l.length then ⟨nthVal l 0, nthVal l 1, nthVal l 2, nthVal l 3, nthVal l 4⟩
    else if l.length = 4 then ⟨.vnone, nthVal l 0, nthVal l 1, nthVal l 2, nthVal l 3⟩
    else ⟨nthVal l 0, nthVal l 1, nthVal l 2, nthVal l 3, nthVal l 4⟩

/-- `validators._coerce_str`: `None` becomes the empty string, anything
else is `str(value).strip()`. -/
def _coerce_str (v : PyVal) : String :=
  match v with
  | .vnone => ""
  | v => pyStrip (pyStrRepr v)

/-- `validators._normalize_decimal_str`: drop spaces; if a comma is present
and no period, the comma becomes the decimal point. -/
def _normalize_decimal_str (s : String) : String :=
  let s1 := stripSpacesStr s
  if strContainsChar s1 ',' && !strContainsChar s1 '.' then commaToDot s1
  else s1

/-- One character of the class `[A-Za-zÀ-ÿ0-9]` searched by
`validate_text`. -/
def isPyWordChar (c : Char) : Bool :=
  (65 ≤ c.toNat && c.toNat ≤ 90) || (97 ≤ c.toNat && c.toNat ≤ 122) ||
  (48 ≤ c.toNat && c.toNat ≤ 57) || (192 ≤ c.toNat && c.toNat ≤ 255)

/-- `validators.validate_text`.  A failed validation is the `.error` case,
carrying the `ValidationError` message. -/
def validate_text (label : String) (value : PyVal)
    (min_len : Nat := 1) (max_len : Nat := 200) : Except String String :=
  let s := _coerce_str value
  if s.length < min_len then .error (label ++ " não pode ser vazio.")
  else if max_len < s.length then
    .error (label ++ " deve ter no máximo " ++ natToStr max_len ++ " caracteres.")
  else if !(s.data.any isPyWordChar) then .error (label ++ " parece inválido.")
  else .ok s

/-- `validators.validate_year`.  `datetime.now().year` is passed in
explicitly as `currentYear` (the source reads it at call time). -/
def validate_year (currentYear : Int) (label : String) (value : PyVal)
    (min_year : Int := 1400) : Except String Int :=
  let s := _coerce_str value
  if s.isEmpty then .error (label ++ " não pode ser vazio.")
  else
    match parsePyInt s with
    | none => .error (label ++ " deve ser um número inteiro (ex.: 1999).")
    | some year =>
      if year < min_year ∨ currentYear + 1 < year then
        .error (label ++ " deve estar entre " ++ pyIntStr min_year ++ " e " ++
          pyIntStr (currentYear + 1) ++ ".")
      else .ok year

/-- Python `f"..{x:.2f}"` for a nonnegative bound (used only in the price
range messages, with the defaults `0.0` and `1_000_000.0`). -/
def fixed2 (q : ℚ) : String :=
  let n := (roundHalfEven (q * 100)).toNat
  natToStr (n / 100) ++ "." ++ ⟨[digitChar (n % 100 / 10), digitChar (n % 100 % 10)]⟩

/-- `validators.validate_price`. -/
def validate_price (label : String) (value : PyVal)
    (min_value : ℚ := 0) (max_value : ℚ := 1000000) : Except String ℚ :=
  let s := _coerce_str value
  if s.isEmpty then .error (label ++ " não pode ser vazio.")
  else
    match parsePyFloat (_normalize_decimal_str s) with
    | none => .error (label ++ " deve ser um número (ex.: 35.90).")
    | some price =>
      if price < min_value then
        .error (label ++ " deve ser maior ou igual a " ++ fixed2 min_value ++ ".")
      else if max_value < price then
        .error (label ++ " não pode ser maior que " ++ fixed2 max_value ++ ".")
      else .ok (round2 price)

/-- A validated book record as stored in the `livros` table
(`src/lib/db.py`); the surrogate id is the list position. -/
structure Book where
  titulo : String
  autor : String
  ano : Int
  preco : ℚ
deriving DecidableEq, Repr

/-- `DBManager.add_book`: `INSERT OR IGNORE` under the unique index on
`(titulo, autor, ano_publicacao)`.  Returns the new store and the
`rowcount` (1 inserted, 0 duplicate ignored). -/
def add_book (db : List Book) (b : Book) : List Book × Nat :=
  if db.any (fun x => x.titulo == b.titulo && x.autor == b.autor && x.ano == b.ano) then (db, 0)
  else (db ++ [b], 1)

/-- A CSV file modelled structurally, after the `csv` module has done its
(inverse pair of) textual serialization: the header row as the reader's
`fieldnames`, and the data rows as cell lists. -/
structure CsvFile where
  header : List String
  rows : List (List String)
deriving DecidableEq, Repr

/-- `FileManager.export_to_csv` (`src/lib/file_manager.py`): normalize every
item, decide globally whether any id is present (`r[0] is not None`), then
write the header and one projected row per record. -/
def export_to_csv (books : List PyItem) : CsvFile :=
  let normalized := books.map fm_normalize_row
  let has_any_id := normalized.any (fun r => r.id != PyVal.vnone)
  let header := if has_any_id then ["id", "titulo", "autor", "ano_publicacao", "preco"]
    else ["titulo", "autor", "ano_publicacao", "preco"]
  ⟨header,
   normalized.map (fun r =>
     if has_any_id then [csvCell r.id, csvCell r.titulo, csvCell r.autor, csvCell r.ano, csvCell r.preco]
     else [csvCell r.titulo, csvCell r.autor, csvCell r.ano, csvCell r.preco])⟩

/-- `headers_map[k]` where `headers_map = {h.lower(): h}` over the stripped
raw headers: the last raw header whose lowercasing is `k`. -/
def headersMapGet (raw : List String) (k : String) : Option String :=
  (raw.filter (fun h => pyLower h == k)).getLast?

/-- The `pick` helper of `import_from_csv`: first synonym present in the
header map wins. -/
def pick (raw : List String) : List String → Option String
  | [] => none
  | k :: ks =>
    match headersMapGet raw k with
    | some h => some h
    | none => pick raw ks

/-- The four resolved column names of `import_from_csv`. -/
structure Cols where
  titulo : String
  autor : String
  ano : String
  preco : String
deriving DecidableEq, Repr

/-- Column resolution: all four canonical fields must resolve. -/
def resolvedCols (raw : List String) : Option Cols :=
  match pick raw ["titulo", "title"], pick raw ["autor", "author"],
      pick raw ["ano_publicacao", "ano", "year"], pick raw ["preco", "price"] with
  | some t, some a, some y, some p => some ⟨t, a, y, p⟩
  | _, _, _, _ => none

/-- The `missing` list of `import_from_csv`: canonical names of unresolved
columns, in the source's dict order. -/
def missingCols (raw : List String) : List String :=
  (if (pick raw ["titulo", "title"]).isNone then ["titulo"] else []) ++
  (if (pick raw ["autor", "author"]).isNone then ["autor"] else []) ++
  (if (pick raw ["ano_publicacao", "ano", "year"]).isNone then ["ano_publicacao"] else []) ++
  (if (pick raw ["preco", "price"]).isNone then ["preco"] else [])

/-- `", ".join(l)`. -/
def joinComma : List String → String
  | [] => ""
  | [x] => x
  | x :: xs => x ++ ", " ++ joinComma xs

/-- The single header-resolution error message of `import_from_csv`. -/
def headerErrorMsg (missing : List String) : String :=
  "Cabeçalho inválido. Esperado pelo menos as colunas: titulo (ou title), " ++
  "autor (ou author), ano_publicacao (ou ano/year), preco (ou price). " ++
  "Faltando: " ++ joinComma missing

/-- `csv.DictReader` cell access `row.get(col, dflt)`: the dict maps each
raw (unstripped) fieldname to the cell at its position — last occurrence
wins, as in `dict(zip(fieldnames, row))` — with `None` as `restval` for a
short row; an absent key yields the `get` default. -/
def dictReaderGet (header : List String) (row : List String) (col : String) (dflt : PyVal) : PyVal :=
  match (List.range header.length).foldl
      (fun acc i => if header.get? i == some col then some i else acc) none with
  | none => dflt
  | some i =>
    match row.get? i with
    | some cell => .vstr cell
    | none => .vnone

/-- The body of the per-row `try` block of `import_from_csv`: read the four
raw cells through the resolved columns, validate them, and build the book.
The inline comma-to-period treatment of the price string is the source's,
verbatim. -/
def processRow (currentYear : Int) (header : List String) (cols : Cols)
    (row : List String) : Except String Book := do
  let raw_titulo := dictReaderGet header row cols.titulo (.vstr "")
  let raw_autor := dictReaderGet header row cols.autor (.vstr "")
  let raw_ano := dictReaderGet header row cols.ano (.vstr "")
  let raw_preco := dictReaderGet header row cols.preco (.vstr "")
  let titulo ← validate_text "Título" raw_titulo
  let autor ← validate_text "Autor" raw_autor
  let ano ← validate_year currentYear "Ano de publicação" raw_ano
  let preco_str := stripSpacesStr (pyStrRepr raw_preco)
  let preco_str := if strContainsChar preco_str ',' && !strContainsChar preco_str '.' then
    commaToDot preco_str else preco_str
  let preco ← validate_price "Preço" (.vstr preco_str)
  return ⟨titulo, autor, ano, preco⟩

/-- The `(inserted, skipped, errors)` accounting of one import call,
together with the record store it leaves behind. -/
structure ImportResult where
  db : List Book
  inserted : Nat
  skipped : Nat
  errors : List String
deriving DecidableEq, Repr

/-- The row loop of `import_from_csv`, generic in the per-row body `step`
(covering a `ValidationError` as well as any other exception the body
raises, both caught by the source's bare `except Exception`): a failing row
adds one `Linha i` message and one skip; a successful row is handed to
`add_book`, whose return value the source discards before incrementing
`inserted`. -/
def importLoop (step : List String → Except String Book) :
    List Book → List (List String) → Nat → ImportResult
  | db, [], _ => ⟨db, 0, 0, []⟩
  | db, row :: rest, i =>
    match step row with
    | .ok b =>
      let r := importLoop step (add_book db b).1 rest (i + 1)
      ⟨r.db, r.inserted + 1, r.skipped, r.errors⟩
    | .error e =>
      let r := importLoop step db rest (i + 1)
      ⟨r.db, r.inserted, r.skipped + 1, ("Linha " ++ natToStr i ++ ": " ++ e) :: r.errors⟩

/-- `import_from_csv(db, csv_path)` (`src/lib/file_manager.py`).  A
nonexistent path is `file = none`; `path` is the resolved path string used
in the not-found message.  Header names are stripped for resolution, while
the reader's dicts keep the raw fieldnames.  Row numbering starts at 2
(the header is line 1). -/
def import_from_csv (currentYear : Int) (file : Option CsvFile) (path : String)
    (db : List Book) : ImportResult :=
  match file with
  | none => ⟨db, 0, 0, ["Arquivo não encontrado: " ++ path]⟩
  | some f =>
    let raw := f.header.map pyStrip
    match resolvedCols raw with
    | some cols => importLoop (processRow currentYear f.header cols) db f.rows 2
    | none => ⟨db, 0, 0, [headerErrorMsg (missingCols raw)]⟩

/-- `True` on a successful per-row outcome. -/
def isOkE (e : Except String Book) : Bool :=
  match e with
  | .ok _ => true
  | .error _ => false

/-- Pair each element with its line number, starting at `i`. -/
def numberFrom {α : Type} : Nat → List α → List (Nat × α)
  | _, [] => []
  | i, x :: xs => (i, x) :: numberFrom (i + 1) xs

/-- Equality on the unique-index key `(titulo, autor, ano_publicacao)`. -/
def bookKeyEq (a b : Book) : Prop :=
  a.titulo = b.titulo ∧ a.autor = b.autor ∧ a.ano = b.ano

/-- Some record with `b`'s key is already stored. -/
def keyMem (db : List Book) (b : Book) : Prop := ∃ x ∈ db, bookKeyEq x b

/-- A canonical record every field of which the validators accept as-is
(the spec's "validated canonical record" invariant, with `currentYear`
explicit). -/
def ValidatedRec (cy : Int) (b : Book) : Prop :=
  validate_text "Título" (.vstr b.titulo) = .ok b.titulo ∧
  validate_text "Autor" (.vstr b.autor) = .ok b.autor ∧
  1400 ≤ b.ano ∧ b.ano ≤ cy + 1 ∧
  0 ≤ b.preco ∧ b.preco ≤ 1000000 ∧ (b.preco * 100).den = 1

/-- The raw shape in which a stored record (id plus fields) reaches
`export_to_csv`, as `get_all_books` hands the 5-tuples over. -/
def exportItem (r : PyVal × Book) : PyItem :=
  .seq [r.1, .vstr r.2.titulo, .vstr r.2.autor, .vint r.2.ano, .vrat r.2.preco]

/-! ### Lemmas: decimal rendering parses back -/

theorem digitChar_isDigit : ∀ d : Nat, d < 10 → isDigitChar (digitChar d) = true := by decide

theorem digitVal_digitChar : ∀ d : Nat, d < 10 → digitVal (digitChar d) = d := by decide

theorem natDigitsAux_spec : ∀ fuel n, n < fuel →
    natDigitsAux fuel n ≠ [] ∧ (natDigitsAux fuel n).all isDigitChar = true ∧
    ∀ acc, (natDigitsAux fuel n).foldl (fun a c => a * 10 + digitVal c) acc =
      acc * 10 ^ (natDigitsAux fuel n).length + n := by
  intro fuel
  induction fuel with
  | zero => intro n hn; omega
  | succ fuel ih =>
    intro n hn
    by_cases h10 : n < 10
    · refine ⟨by simp [natDigitsAux, h10], by simp [natDigitsAux, h10, digitChar_isDigit n h10], ?_⟩
      intro acc
      simp [natDigitsAux, h10, digitVal_digitChar n h10]
    · have hdiv : n / 10 < fuel := by
        have := Nat.div_lt_self (by omega : 0 < n) (by omega : 1 < 10)
        omega
      obtain ⟨hne, hall, hfold⟩ := ih (n / 10) hdiv
      have hmod : n % 10 < 10 := Nat.mod_lt _ (by omega)
      refine ⟨by simp [natDigitsAux, h10], ?_, ?_⟩
      · simp only [natDigitsAux, if_neg h10, List.all_append, hall,
          List.all_cons, List.all_nil, Bool.and_true, Bool.true_and]
        exact digitChar_isDigit _ hmod
      · intro acc
        simp only [natDigitsAux, if_neg h10, List.foldl_append, hfold,
          List.foldl_cons, List.foldl_nil, List.length_append, List.length_cons,
          List.length_nil, digitVal_digitChar _ hmod]
        have hdm : 10 * (n / 10) + n % 10 = n := Nat.div_add_mod n 10
        have hpow : 10 ^ ((natDigitsAux fuel (n / 10)).length + (0 + 1)) =
            10 ^ (natDigitsAux fuel (n / 10)).length * 10 := by
          simp [pow_succ]
        rw [hpow]
        set A := acc * 10 ^ (natDigitsAux fuel (n / 10)).length with hA
        have : acc * (10 ^ (natDigitsAux fuel (n / 10)).length * 10) = A * 10 := by
          rw [hA]; ring
        rw [this]
        omega

theorem natDigits_ne_nil (n : Nat) : natDigits n ≠ [] :=
  (natDigitsAux_spec (n + 1) n (by omega)).1

theorem natDigits_all_digit (n : Nat) : (natDigits n).all isDigitChar = true :=
  (natDigitsAux_spec (n + 1) n (by omega)).2.1

theorem parseNatDigits_natDigits (n : Nat) : parseNatDigits (natDigits n) = n := by
  have h := (natDigitsAux_spec (n + 1) n (by omega)).2.2 0
  simpa [parseNatDigits, natDigits] using h

theorem parsePyNat_natDigits (n : Nat) : parsePyNat (natDigits n) = some n := by
  have hne := natDigits_ne_nil n
  simp [parsePyNat, List.isEmpty_iff, hne, natDigits_all_digit n, parseNatDigits_natDigits n]

theorem isDigitChar_ne (c : Char) (h : isDigitChar c = true) :
    c ≠ '-' ∧ c ≠ '+' ∧ c ≠ ',' ∧ c ≠ '.' ∧ c ≠ ' ' ∧ isPySpace c = false := by
  simp only [isDigitChar, Bool.and_eq_true, decide_eq_true_eq] at h
  have hval : 48 ≤ c.toNat ∧ c.toNat ≤ 57 := h
  refine ⟨?_, ?_, ?_, ?_, ?_, ?_⟩
  · intro he; subst he; exact absurd hval (by decide)
  · intro he; subst he; exact absurd hval (by decide)
  · intro he; subst he; exact absurd hval (by decide)
  · intro he; subst he; exact absurd hval (by decide)
  · intro he; subst he; exact absurd hval (by decide)
  · simp only [isPySpace, Bool.or_eq_false_iff, beq_eq_false_iff_ne, ne_eq]
    refine ⟨⟨⟨⟨⟨?_, ?_⟩, ?_⟩, ?_⟩, ?_⟩, ?_⟩ <;>
      (intro he; subst he; exact absurd hval (by decide))

theorem parsePyIntChars_of_digits (l : List Char) (hne : l ≠ [])
    (hall : l.all isDigitChar = true) :
    parsePyIntChars l = (parsePyNat l).map (fun n => (n : Int)) := by
  match l, hne with
  | c :: rest, _ =>
    have hc : isDigitChar c = true := by
      simp only [List.all_cons, Bool.and_eq_true] at hall
      exact hall.1
    obtain ⟨h1, h2, _, _, _, _⟩ := isDigitChar_ne c hc
    simp [parsePyIntChars, h1, h2]

theorem parsePyInt_natToStr (n : Nat) : parsePyInt (natToStr n) = some (n : Int) := by
  simp only [parsePyInt, natToStr]
  rw [parsePyIntChars_of_digits _ (natDigits_ne_nil n) (natDigits_all_digit n)]
  simp [parsePyNat_natDigits n]

theorem parsePyInt_pyIntStr_nonneg (y : Int) (hy : 0 ≤ y) :
    parsePyInt (pyIntStr y) = some y := by
  have : ¬(y < 0) := by omega
  simp only [pyIntStr, if_neg this]
  rw [parsePyInt_natToStr]
  congr 1
  omega

theorem natDigits_mem_digit {n : Nat} {c : Char} (hc : c ∈ natDigits n) :
    isDigitChar c = true := by
  have h := natDigits_all_digit n
  rw [List.all_eq_true] at h
  exact h c hc

theorem digitVal_zero_char : digitVal '0' = 0 := by decide

theorem fracChars_spec (f : Nat) (hf : f < 100) :
    fracChars f ≠ [] ∧ (∀ c ∈ fracChars f, isDigitChar c = true) ∧
    (parseNatDigits (fracChars f) : ℚ) / (10 : ℚ) ^ (fracChars f).length = (f : ℚ) / 100 := by
  by_cases h0 : f = 0
  · subst h0
    have he : fracChars 0 = ['0'] := rfl
    refine ⟨by simp [he], ?_, by simp [he, parseNatDigits, digitVal]⟩
    intro c hc
    rw [he, List.mem_singleton] at hc
    subst hc; decide
  · by_cases hm : f % 10 = 0
    · have hq : f / 10 < 10 := by omega
      have he : fracChars f = [digitChar (f / 10)] := by
        simp [fracChars, h0, hm]
      have hp : parseNatDigits [digitChar (f / 10)] = f / 10 := by
        simp [parseNatDigits, digitVal_digitChar _ hq]
      refine ⟨by simp [he], ?_, ?_⟩
      · intro c hc
        rw [he, List.mem_singleton] at hc
        subst hc; exact digitChar_isDigit _ hq
      · rw [he, hp]
        have h1 : f / 10 * 10 = f := by omega
        have h2 : ((f / 10 : Nat) : ℚ) * 10 = (f : ℚ) := by exact_mod_cast h1
        have h3 : ((10 : ℚ)) ^ ([digitChar (f / 10)].length) = 10 := by norm_num
        rw [h3]
        field_simp
        linarith
    · by_cases hlt : f < 10
      · have he : fracChars f = ['0', digitChar f] := by
          simp [fracChars, h0, hm, hlt]
        have hp : parseNatDigits ['0', digitChar f] = f := by
          simp [parseNatDigits, digitVal_zero_char, digitVal_digitChar _ hlt]
        refine ⟨by simp [he], ?_, ?_⟩
        · intro c hc
          rw [he, List.mem_cons, List.mem_singleton] at hc
          rcases hc with hc | hc
          · subst hc; decide
          · subst hc; exact digitChar_isDigit _ hlt
        · rw [he, hp]
          norm_num
      · have hq : f / 10 < 10 := by omega
        have hm10 : f % 10 < 10 := by omega
        have he : fracChars f = [digitChar (f / 10), digitChar (f % 10)] := by
          simp [fracChars, h0, hm, hlt]
        have hp : parseNatDigits [digitChar (f / 10), digitChar (f % 10)] = f := by
          simp only [parseNatDigits, List.foldl_cons, List.foldl_nil,
            digitVal_digitChar _ hq, digitVal_digitChar _ hm10]
          omega
        refine ⟨by simp [he], ?_, ?_⟩
        · intro c hc
          rw [he, List.mem_cons, List.mem_singleton] at hc
          rcases hc with hc | hc
          · subst hc; exact digitChar_isDigit _ hq
          · subst hc; exact digitChar_isDigit _ hm10
        · rw [he, hp]
          norm_num

theorem splitAtDot_append (a b : List Char) (ha : ∀ c ∈ a, c ≠ '.') :
    splitAtDot (a ++ '.' :: b) = (a, some b) := by
  induction a with
  | nil => simp [splitAtDot]
  | cons c cs ih =>
    have hc : c ≠ '.' := ha c (by simp)
    have ih2 := ih (fun x hx => ha x (by simp [hx]))
    simp [splitAtDot, hc, ih2]

theorem parsePyFloatChars_digit_head (c : Char) (rest : List Char)
    (h : isDigitChar c = true) :
    parsePyFloatChars (c :: rest) = parsePyFloatUnsigned (c :: rest) := by
  obtain ⟨h1, h2, _, _, _, _⟩ := isDigitChar_ne c h
  simp [parsePyFloatChars, h1, h2]

theorem centsStr_data (n : Nat) :
    (centsStr n).data = natDigits (n / 100) ++ '.' :: fracChars (n % 100) := by
  simp [centsStr, natToStr, String.data_append]

theorem parsePyFloat_centsStr (n : Nat) :
    parsePyFloat (centsStr n) = some ((n : ℚ) / 100) := by
  have hmod : n % 100 < 100 := Nat.mod_lt _ (by omega)
  obtain ⟨hfne, hfall, hfval⟩ := fracChars_spec (n % 100) hmod
  have hsplit : splitAtDot (natDigits (n / 100) ++ '.' :: fracChars (n % 100)) =
      (natDigits (n / 100), some (fracChars (n % 100))) :=
    splitAtDot_append _ _ (fun c hc => (isDigitChar_ne c (natDigits_mem_digit hc)).2.2.2.1)
  rw [parsePyFloat, centsStr_data]
  obtain ⟨d, rest, hcons⟩ : ∃ d rest, natDigits (n / 100) = d :: rest := by
    cases hnd : natDigits (n / 100) with
    | nil => exact absurd hnd (natDigits_ne_nil _)
    | cons d rest => exact ⟨d, rest, rfl⟩
  have hd : isDigitChar d = true := natDigits_mem_digit (by rw [hcons]; simp)
  rw [hcons] at hsplit ⊢
  rw [show (d :: rest) ++ '.' :: fracChars (n % 100) =
    d :: (rest ++ '.' :: fracChars (n % 100)) from rfl]
  rw [parsePyFloatChars_digit_head d _ hd]
  rw [show d :: (rest ++ '.' :: fracChars (n % 100)) =
    (d :: rest) ++ '.' :: fracChars (n % 100) from rfl]
  unfold parsePyFloatUnsigned
  rw [hsplit]
  simp only []
  have hnoDot : (fracChars (n % 100)).any (· == '.') = false := by
    rw [List.any_eq_false]
    intro c hc
    simpa using (isDigitChar_ne c (hfall c hc)).2.2.2.1
  have hipAll : (d :: rest).all isDigitChar = true := by rw [← hcons]; exact natDigits_all_digit _
  have hfpAll : (fracChars (n % 100)).all isDigitChar = true := by
    rw [List.all_eq_true]; exact hfall
  have hipNe : ((d :: rest).isEmpty && (fracChars (n % 100)).isEmpty) = false := by simp
  rw [hnoDot, hipNe, hipAll, hfpAll]
  simp only [Bool.false_eq_true, if_false, Bool.and_self, if_true]
  have hip : parseNatDigits (d :: rest) = n / 100 := by
    rw [← hcons]; exact parseNatDigits_natDigits _
  rw [hip]
  rw [show ((parseNatDigits (fracChars (n % 100)) : ℚ) / (10 : ℚ) ^ (fracChars (n % 100)).length)
    = ((n % 100 : Nat) : ℚ) / 100 from hfval]
  have key : ((n / 100 : Nat) : ℚ) + ((n % 100 : Nat) : ℚ) / 100 = (n : ℚ) / 100 := by
    have h1 : n / 100 * 100 + n % 100 = n := by omega
    have h2 : ((n / 100 : Nat) : ℚ) * 100 + ((n % 100 : Nat) : ℚ) = (n : ℚ) := by
      exact_mod_cast h1
    field_simp
    linarith
  rw [key]

theorem ratCents_cast (q : ℚ) (hq : 0 ≤ q) (hden : (q * 100).den = 1) :
    (((q * 100).num.toNat : ℚ)) = q * 100 := by
  have hnum : ((q * 100).num : ℚ) = q * 100 := by
    rw [← Rat.num_div_den (q * 100), hden]
    simp
  have hnn : 0 ≤ (q * 100).num := Rat.num_nonneg.mpr (mul_nonneg hq (by norm_num))
  have h2 : ((q * 100).num.toNat : ℤ) = (q * 100).num := Int.toNat_of_nonneg hnn
  calc ((q * 100).num.toNat : ℚ) = (((q * 100).num.toNat : ℤ) : ℚ) := by push_cast; ring
    _ = ((q * 100).num : ℚ) := by rw [h2]
    _ = q * 100 := hnum

theorem parsePyFloat_pyFloatStr (q : ℚ) (hq : 0 ≤ q) (hden : (q * 100).den = 1) :
    parsePyFloat (pyFloatStr q) = some q := by
  have hneg : ¬(q < 0) := not_lt.mpr hq
  rw [pyFloatStr, if_neg hneg, pyFloatStrAbs, if_pos hden, parsePyFloat_centsStr]
  rw [ratCents_cast q hq hden]
  congr 1
  ring

theorem round2_fix (q : ℚ) (hden : (q * 100).den = 1) :
    round2 q = q := by
  have hnum : ((q * 100).num : ℚ) = q * 100 := by
    rw [← Rat.num_div_den (q * 100), hden]
    simp
  have hfloor : ⌊q * 100⌋ = (q * 100).num := by
    conv_lhs => rw [show (q * 100 : ℚ) = ((q * 100).num : ℚ) from hnum.symm]
    exact Int.floor_intCast _
  have hr : roundHalfEven (q * 100) = (q * 100).num := by
    simp only [roundHalfEven, hfloor]
    have hz : q * 100 - (((q * 100).num : ℤ) : ℚ) = 0 := by rw [hnum]; ring
    rw [hz]
    norm_num
  rw [round2, hr, hnum]
  ring

/-! ### Lemmas: stripping and scanning leave rendered numbers unchanged -/

theorem dropWhile_of_all_false {p : Char → Bool} (l : List Char)
    (h : ∀ c ∈ l, p c = false) : l.dropWhile p = l := by
  cases l with
  | nil => rfl
  | cons c cs => simp [List.dropWhile_cons, h c (by simp)]

theorem pyStripChars_of_no_space (l : List Char) (h : ∀ c ∈ l, isPySpace c = false) :
    pyStripChars l = l := by
  unfold pyStripChars
  rw [dropWhile_of_all_false l h,
    dropWhile_of_all_false l.reverse (fun c hc => h c (List.mem_reverse.mp hc)),
    List.reverse_reverse]

theorem pyStrip_of_no_space (s : String) (h : ∀ c ∈ s.data, isPySpace c = false) :
    pyStrip s = s := by
  cases s with
  | mk data =>
    simp only [pyStrip]
    rw [pyStripChars_of_no_space data h]

theorem isEmpty_false_of_data_ne (s : String) (h : s.data ≠ []) : s.isEmpty = false := by
  rw [Bool.eq_false_iff]
  intro hem
  rw [String.isEmpty_iff] at hem
  subst hem
  exact h rfl

theorem centsStr_chars (n : Nat) :
    ∀ c ∈ (centsStr n).data, isDigitChar c = true ∨ c = '.' := by
  rw [centsStr_data]
  intro c hc
  rw [List.mem_append] at hc
  rcases hc with hc | hc
  · exact Or.inl (natDigits_mem_digit hc)
  · rw [List.mem_cons] at hc
    rcases hc with hc | hc
    · exact Or.inr hc
    · exact Or.inl ((fracChars_spec (n % 100) (Nat.mod_lt _ (by omega))).2.1 c hc)

theorem pyFloatStr_chars (q : ℚ) (hq : 0 ≤ q) (hden : (q * 100).den = 1) :
    ∀ c ∈ (pyFloatStr q).data, isDigitChar c = true ∨ c = '.' := by
  rw [pyFloatStr, if_neg (not_lt.mpr hq), pyFloatStrAbs, if_pos hden]
  exact centsStr_chars _

theorem floatChar_not_space {c : Char} (h : isDigitChar c = true ∨ c = '.') :
    isPySpace c = false := by
  rcases h with h | h
  · exact (isDigitChar_ne c h).2.2.2.2.2
  · subst h; decide

theorem floatChar_ne_space {c : Char} (h : isDigitChar c = true ∨ c = '.') :
    (c != ' ') = true := by
  rcases h with h | h
  · simpa using (isDigitChar_ne c h).2.2.2.2.1
  · subst h; decide

theorem floatChar_ne_comma {c : Char} (h : isDigitChar c = true ∨ c = '.') :
    (c == ',') = false := by
  rcases h with h | h
  · simpa using (isDigitChar_ne c h).2.2.1
  · subst h; decide

theorem stripSpaces_noop_of_float_chars (s : String)
    (h : ∀ c ∈ s.data, isDigitChar c = true ∨ c = '.') :
    stripSpacesStr s = s := by
  cases s with
  | mk data =>
    simp only [stripSpacesStr]
    rw [List.filter_eq_self.mpr (fun c hc => floatChar_ne_space (h c hc))]

theorem no_comma_of_float_chars (s : String)
    (h : ∀ c ∈ s.data, isDigitChar c = true ∨ c = '.') :
    strContainsChar s ',' = false := by
  rw [strContainsChar, List.any_eq_false]
  intro c hc
  simpa using floatChar_ne_comma (h c hc)

theorem pyFloatStr_data_ne (q : ℚ) (hq : 0 ≤ q) (hden : (q * 100).den = 1) :
    (pyFloatStr q).data ≠ [] := by
  rw [pyFloatStr, if_neg (not_lt.mpr hq), pyFloatStrAbs, if_pos hden, centsStr_data]
  intro h
  exact natDigits_ne_nil _ (List.append_eq_nil.mp h).1

/-! ### Lemmas: the validators accept what the exporter rendered -/

theorem pyIntStr_data_nonneg (y : Int) (hy : 0 ≤ y) :
    (pyIntStr y).data = natDigits y.toNat := by
  rw [pyIntStr, if_neg (not_lt.mpr hy), natToStr]

theorem validate_year_pyIntStr (cy : Int) (lbl : String) (y : Int)
    (h1 : 1400 ≤ y) (h2 : y ≤ cy + 1) :
    validate_year cy lbl (.vstr (pyIntStr y)) = .ok y := by
  have hnn : 0 ≤ y := by omega
  have hdata := pyIntStr_data_nonneg y hnn
  have hstrip : pyStrip (pyIntStr y) = pyIntStr y := by
    apply pyStrip_of_no_space
    rw [hdata]
    intro c hc
    exact (isDigitChar_ne c (natDigits_mem_digit hc)).2.2.2.2.2
  have hemp : (pyIntStr y).isEmpty = false := by
    apply isEmpty_false_of_data_ne
    rw [hdata]
    exact natDigits_ne_nil _
  have hparse := parsePyInt_pyIntStr_nonneg y hnn
  simp only [validate_year, _coerce_str, pyStrRepr, hstrip, hemp, Bool.false_eq_true,
    if_false, hparse]
  rw [if_neg (by omega)]

theorem validate_price_pyFloatStr (lbl : String) (q : ℚ)
    (h0 : 0 ≤ q) (h6 : q ≤ 1000000) (hden : (q * 100).den = 1) :
    validate_price lbl (.vstr (pyFloatStr q)) = .ok q := by
  have hchars := pyFloatStr_chars q h0 hden
  have hstrip : pyStrip (pyFloatStr q) = pyFloatStr q :=
    pyStrip_of_no_space _ (fun c hc => floatChar_not_space (hchars c hc))
  have hemp : (pyFloatStr q).isEmpty = false :=
    isEmpty_false_of_data_ne _ (pyFloatStr_data_ne q h0 hden)
  have hnorm : _normalize_decimal_str (pyFloatStr q) = pyFloatStr q := by
    rw [_normalize_decimal_str, stripSpaces_noop_of_float_chars _ hchars,
      no_comma_of_float_chars _ hchars]
    simp
  have hparse := parsePyFloat_pyFloatStr q h0 hden
  simp only [validate_price, _coerce_str, pyStrRepr, hstrip, hemp, Bool.false_eq_true,
    if_false, hnorm, hparse]
  rw [if_neg (not_lt.mpr h0), if_neg (not_lt.mpr h6), round2_fix q hden]

/-! ### Lemmas: the import loop -/



theorem isOkE_ok (b : Book) : isOkE (.ok b) = true := rfl

theorem isOkE_error (e : String) : isOkE (.error e) = false := rfl



theorem add_book_of_not_mem (db : List Book) (b : Book)
    (h : ∀ x ∈ db, ¬ bookKeyEq x b) : add_book db b = (db ++ [b], 1) := by
  rw [add_book, if_neg]
  intro hany
  rw [List.any_eq_true] at hany
  obtain ⟨x, hx, hkey⟩ := hany
  simp only [Bool.and_eq_true, beq_iff_eq] at hkey
  exact h x hx ⟨hkey.1.1, hkey.1.2, hkey.2⟩

theorem add_book_of_dup (db : List Book) (b : Book) (h : keyMem db b) :
    add_book db b = (db, 0) := by
  rw [add_book, if_pos]
  obtain ⟨x, hx, hkey⟩ := h
  rw [List.any_eq_true]
  exact ⟨x, hx, by simp only [Bool.and_eq_true, beq_iff_eq]; exact ⟨⟨hkey.1, hkey.2.1⟩, hkey.2.2⟩⟩

theorem add_book_keyMem (db : List Book) (b : Book) : keyMem (add_book db b).1 b := by
  rw [add_book]
  by_cases h : db.any (fun x => x.titulo == b.titulo && x.autor == b.autor && x.ano == b.ano)
  · rw [if_pos h]
    rw [List.any_eq_true] at h
    obtain ⟨x, hx, hkey⟩ := h
    simp only [Bool.and_eq_true, beq_iff_eq] at hkey
    exact ⟨x, hx, hkey.1.1, hkey.1.2, hkey.2⟩
  · rw [if_neg h]
    exact ⟨b, by simp, rfl, rfl, rfl⟩

theorem add_book_superset (db : List Book) (b : Book) :
    ∀ x ∈ db, x ∈ (add_book db b).1 := by
  intro x hx
  rw [add_book]
  by_cases h : db.any (fun y => y.titulo == b.titulo && y.autor == b.autor && y.ano == b.ano)
  · rw [if_pos h]; exact hx
  · rw [if_neg h]; exact List.mem_append_left _ hx

theorem importLoop_db_superset (step : List String → Except String Book)
    (db : List Book) (rows : List (List String)) (i : Nat) :
    ∀ x ∈ db, x ∈ (importLoop step db rows i).db := by
  induction rows generalizing db i with
  | nil => intro x hx; simpa [importLoop] using hx
  | cons row rest ih =>
    intro x hx
    cases hstep : step row with
    | ok b =>
      simp only [importLoop, hstep]
      exact ih _ _ x (add_book_superset db b x hx)
    | error e =>
      simp only [importLoop, hstep]
      exact ih _ _ x hx

theorem keyMem_superset {db db2 : List Book} {b : Book}
    (hsub : ∀ x ∈ db, x ∈ db2) (h : keyMem db b) : keyMem db2 b := by
  obtain ⟨x, hx, hkey⟩ := h
  exact ⟨x, hsub x hx, hkey⟩

theorem importLoop_keyMem (step : List String → Except String Book)
    (db : List Book) (rows : List (List String)) (i : Nat)
    (row : List String) (hrow : row ∈ rows) (b : Book) (hb : step row = .ok b) :
    keyMem (importLoop step db rows i).db b := by
  induction rows generalizing db i with
  | nil => cases hrow
  | cons r rest ih =>
    rcases List.mem_cons.mp hrow with hr | hr
    · subst hr
      simp only [importLoop, hb]
      exact keyMem_superset (importLoop_db_superset _ _ _ _) (add_book_keyMem db b)
    · cases hstep : step r with
      | ok b2 =>
        simp only [importLoop, hstep]
        exact ih _ _ hr
      | error e =>
        simp only [importLoop, hstep]
        exact ih _ _ hr

theorem importLoop_accounting (step : List String → Except String Book)
    (db : List Book) (rows : List (List String)) (i : Nat) :
    (importLoop step db rows i).inserted + (importLoop step db rows i).skipped = rows.length ∧
    (importLoop step db rows i).errors = (numberFrom i rows).filterMap (fun p =>
      match step p.2 with
      | .error e => some ("Linha " ++ natToStr p.1 ++ ": " ++ e)
      | .ok _ => none) ∧
    (importLoop step db rows i).skipped = rows.countP (fun row => !(isOkE (step row))) ∧
    (importLoop step db rows i).inserted = rows.countP (fun row => isOkE (step row)) ∧
    (importLoop step db rows i).errors.length = (importLoop step db rows i).skipped := by
  induction rows generalizing db i with
  | nil => simp [importLoop, numberFrom]
  | cons row rest ih =>
    cases hstep : step row with
    | ok b =>
      obtain ⟨ih1, ih2, ih3, ih4, ih5⟩ := ih (add_book db b).1 (i + 1)
      refine ⟨?_, ?_, ?_, ?_, ?_⟩
      · simp only [importLoop, hstep, List.length_cons]
        omega
      · simp [importLoop, hstep, numberFrom, ih2]
      · simp [importLoop, hstep, List.countP_cons, isOkE_ok, ih3]
      · simp [importLoop, hstep, List.countP_cons, isOkE_ok, ih4]
      · simp [importLoop, hstep, ih5]
    | error e =>
      obtain ⟨ih1, ih2, ih3, ih4, ih5⟩ := ih db (i + 1)
      refine ⟨?_, ?_, ?_, ?_, ?_⟩
      · simp only [importLoop, hstep, List.length_cons]
        omega
      · simp [importLoop, hstep, numberFrom, ih2]
      · simp [importLoop, hstep, List.countP_cons, isOkE_error, ih3]
      · simp [importLoop, hstep, List.countP_cons, isOkE_error, ih4]
      · simp [importLoop, hstep, ih5]

theorem importLoop_all_ok (step : List String → Except String Book)
    (pairs : List (List String × Book)) (db : List Book) (i : Nat)
    (hstep : ∀ p ∈ pairs, step p.1 = .ok p.2)
    (hnotin : ∀ p ∈ pairs, ∀ x ∈ db, ¬ bookKeyEq x p.2)
    (hdist : pairs.Pairwise (fun p q => ¬ bookKeyEq p.2 q.2)) :
    importLoop step db (pairs.map Prod.fst) i =
      ⟨db ++ pairs.map Prod.snd, pairs.length, 0, []⟩ := by
  induction pairs generalizing db i with
  | nil => simp [importLoop]
  | cons p ps ih =>
    have hp : step p.1 = .ok p.2 := hstep p (by simp)
    have hadd : add_book db p.2 = (db ++ [p.2], 1) :=
      add_book_of_not_mem db p.2 (hnotin p (by simp))
    rw [List.pairwise_cons] at hdist
    have hrec := ih (db ++ [p.2]) (i + 1)
      (fun q hq => hstep q (by simp [hq]))
      (fun q hq x hx => by
        rcases List.mem_append.mp hx with hx | hx
        · exact hnotin q (by simp [hq]) x hx
        · rw [List.mem_singleton] at hx
          subst hx
          exact hdist.1 q hq)
      hdist.2
    simp only [List.map_cons, importLoop, hp, hadd, hrec, List.length_cons]
    simp [List.append_assoc]

theorem importLoop_all_dup (step : List String → Except String Book)
    (db : List Book) (rows : List (List String)) (i : Nat)
    (h : ∀ row ∈ rows, ∃ b, step row = .ok b ∧ keyMem db b) :
    importLoop step db rows i = ⟨db, rows.length, 0, []⟩ := by
  induction rows generalizing i with
  | nil => simp [importLoop]
  | cons row rest ih =>
    obtain ⟨b, hb, hkm⟩ := h row (by simp)
    have hadd := add_book_of_dup db b hkm
    have hrec := ih (i + 1) (fun r hr => h r (by simp [hr]))
    simp [importLoop, hb, hadd, hrec]

/-! ### Lemmas: the orchestrator's three entry outcomes -/

theorem import_none_eq (cy : Int) (path : String) (db : List Book) :
    import_from_csv cy none path db = ⟨db, 0, 0, ["Arquivo não encontrado: " ++ path]⟩ := rfl

theorem import_resolved_eq (cy : Int) (f : CsvFile) (path : String) (db : List Book)
    (cols : Cols) (h : resolvedCols (f.header.map pyStrip) = some cols) :
    import_from_csv cy (some f) path db =
      importLoop (processRow cy f.header cols) db f.rows 2 := by
  simp [import_from_csv, h]

theorem import_unresolved_eq (cy : Int) (f : CsvFile) (path : String) (db : List Book)
    (h : resolvedCols (f.header.map pyStrip) = none) :
    import_from_csv cy (some f) path db =
      ⟨db, 0, 0, [headerErrorMsg (missingCols (f.header.map pyStrip))]⟩ := by
  simp [import_from_csv, h]

theorem missingCols_subset (raw : List String) :
    ∀ x ∈ missingCols raw, x ∈ ["titulo", "autor", "ano_publicacao", "preco"] := by
  intro x hx
  unfold missingCols at hx
  simp only [List.mem_append] at hx
  rcases hx with ((hx | hx) | hx) | hx <;> (split at hx <;> simp_all)

theorem missingCols_ne_nil_of_unresolved (raw : List String)
    (h : resolvedCols raw = none) : missingCols raw ≠ [] := by
  unfold resolvedCols at h
  unfold missingCols
  cases h1 : pick raw ["titulo", "title"] <;>
    cases h2 : pick raw ["autor", "author"] <;>
      cases h3 : pick raw ["ano_publicacao", "ano", "year"] <;>
        cases h4 : pick raw ["preco", "price"] <;>
          simp_all

theorem resolvedCols_isSome_of_missing_nil (raw : List String)
    (h : missingCols raw = []) : (resolvedCols raw).isSome = true := by
  unfold missingCols at h
  unfold resolvedCols
  cases h1 : pick raw ["titulo", "title"] <;>
    cases h2 : pick raw ["autor", "author"] <;>
      cases h3 : pick raw ["ano_publicacao", "ano", "year"] <;>
        cases h4 : pick raw ["preco", "price"] <;>
          simp_all

/-! ### Lemmas: the export serializer and the export/import round trip -/

theorem fm_normalize_seq5 (a b c d e : PyVal) :
    fm_normalize_row (.seq [a, b, c, d, e]) = ⟨a, b, c, d, e⟩ := by
  simp [fm_normalize_row, nthVal]

theorem csvCell_vstr (s : String) : csvCell (.vstr s) = s := rfl

theorem csvCell_vint (n : Int) : csvCell (.vint n) = pyIntStr n := rfl

theorem csvCell_vrat (q : ℚ) : csvCell (.vrat q) = pyFloatStr q := rfl

theorem drg4 (r0 r1 r2 r3 : String) :
    dictReaderGet ["titulo", "autor", "ano_publicacao", "preco"] [r0, r1, r2, r3]
      "titulo" (.vstr "") = .vstr r0 ∧
    dictReaderGet ["titulo", "autor", "ano_publicacao", "preco"] [r0, r1, r2, r3]
      "autor" (.vstr "") = .vstr r1 ∧
    dictReaderGet ["titulo", "autor", "ano_publicacao", "preco"] [r0, r1, r2, r3]
      "ano_publicacao" (.vstr "") = .vstr r2 ∧
    dictReaderGet ["titulo", "autor", "ano_publicacao", "preco"] [r0, r1, r2, r3]
      "preco" (.vstr "") = .vstr r3 := by
  refine ⟨?_, ?_, ?_, ?_⟩ <;>
    simp +decide [dictReaderGet, show List.range 4 = [0, 1, 2, 3] from rfl]

theorem drg5 (r0 r1 r2 r3 r4 : String) :
    dictReaderGet ["id", "titulo", "autor", "ano_publicacao", "preco"] [r0, r1, r2, r3, r4]
      "titulo" (.vstr "") = .vstr r1 ∧
    dictReaderGet ["id", "titulo", "autor", "ano_publicacao", "preco"] [r0, r1, r2, r3, r4]
      "autor" (.vstr "") = .vstr r2 ∧
    dictReaderGet ["id", "titulo", "autor", "ano_publicacao", "preco"] [r0, r1, r2, r3, r4]
      "ano_publicacao" (.vstr "") = .vstr r3 ∧
    dictReaderGet ["id", "titulo", "autor", "ano_publicacao", "preco"] [r0, r1, r2, r3, r4]
      "preco" (.vstr "") = .vstr r4 := by
  refine ⟨?_, ?_, ?_, ?_⟩ <;>
    simp +decide [dictReaderGet, show List.range 5 = [0, 1, 2, 3, 4] from rfl]



theorem processRow_export4 (cy : Int) (b : Book) (h : ValidatedRec cy b) :
    processRow cy ["titulo", "autor", "ano_publicacao", "preco"]
      ⟨"titulo", "autor", "ano_publicacao", "preco"⟩
      [b.titulo, b.autor, pyIntStr b.ano, pyFloatStr b.preco] = .ok b := by
  obtain ⟨ht, ha, h1, h2, hp0, hp6, hden⟩ := h
  have hy := validate_year_pyIntStr cy "Ano de publicação" b.ano h1 h2
  have hp := validate_price_pyFloatStr "Preço" b.preco hp0 hp6 hden
  have hchars := pyFloatStr_chars b.preco hp0 hden
  have hss := stripSpaces_noop_of_float_chars _ hchars
  have hnc := no_comma_of_float_chars _ hchars
  obtain ⟨d1, d2, d3, d4⟩ := drg4 b.titulo b.autor (pyIntStr b.ano) (pyFloatStr b.preco)
  simp only [processRow, d1, d2, d3, d4, pyStrRepr, ht, ha, hy, hss, hnc, hp,
    Bind.bind, Except.bind, Except.instMonad, Pure.pure, Except.pure,
    Bool.false_and, Bool.false_eq_true, if_false]

theorem processRow_export5 (cy : Int) (b : Book) (c0 : String) (h : ValidatedRec cy b) :
    processRow cy ["id", "titulo", "autor", "ano_publicacao", "preco"]
      ⟨"titulo", "autor", "ano_publicacao", "preco"⟩
      [c0, b.titulo, b.autor, pyIntStr b.ano, pyFloatStr b.preco] = .ok b := by
  obtain ⟨ht, ha, h1, h2, hp0, hp6, hden⟩ := h
  have hy := validate_year_pyIntStr cy "Ano de publicação" b.ano h1 h2
  have hp := validate_price_pyFloatStr "Preço" b.preco hp0 hp6 hden
  have hchars := pyFloatStr_chars b.preco hp0 hden
  have hss := stripSpaces_noop_of_float_chars _ hchars
  have hnc := no_comma_of_float_chars _ hchars
  obtain ⟨d1, d2, d3, d4⟩ := drg5 c0 b.titulo b.autor (pyIntStr b.ano) (pyFloatStr b.preco)
  simp only [processRow, d1, d2, d3, d4, pyStrRepr, ht, ha, hy, hss, hnc, hp,
    Bind.bind, Except.bind, Except.instMonad, Pure.pure, Except.pure,
    Bool.false_and, Bool.false_eq_true, if_false]

theorem resolvedCols_header4 :
    resolvedCols (["titulo", "autor", "ano_publicacao", "preco"].map pyStrip) =
      some ⟨"titulo", "autor", "ano_publicacao", "preco"⟩ := by
  decide

theorem resolvedCols_header5 :
    resolvedCols (["id", "titulo", "autor", "ano_publicacao", "preco"].map pyStrip) =
      some ⟨"titulo", "autor", "ano_publicacao", "preco"⟩ := by
  decide

theorem export_import_roundtrip (cy : Int) (recs : List (PyVal × Book)) (path : String)
    (hval : ∀ r ∈ recs, ValidatedRec cy r.2)
    (hdist : recs.Pairwise (fun p q => ¬ bookKeyEq p.2 q.2)) :
    import_from_csv cy (some (export_to_csv (recs.map exportItem))) path [] =
      ⟨recs.map Prod.snd, recs.length, 0, []⟩ := by
  have hcomp : ∀ r : PyVal × Book, fm_normalize_row (exportItem r) =
      (⟨r.1, .vstr r.2.titulo, .vstr r.2.autor, .vint r.2.ano, .vrat r.2.preco⟩ : NormRow) :=
    fun r => fm_normalize_seq5 _ _ _ _ _
  have hnorm : (recs.map exportItem).map fm_normalize_row =
      recs.map (fun r => (⟨r.1, .vstr r.2.titulo, .vstr r.2.autor, .vint r.2.ano,
        .vrat r.2.preco⟩ : NormRow)) := by
    rw [List.map_map]
    exact List.map_congr_left (fun r _ => hcomp r)
  by_cases hid : (recs.map (fun r => (⟨r.1, .vstr r.2.titulo, .vstr r.2.autor,
      .vint r.2.ano, .vrat r.2.preco⟩ : NormRow))).any (fun r => r.id != PyVal.vnone) = true
  · have hexp : export_to_csv (recs.map exportItem) =
        ⟨["id", "titulo", "autor", "ano_publicacao", "preco"],
          recs.map (fun r => [csvCell r.1, r.2.titulo, r.2.autor,
            pyIntStr r.2.ano, pyFloatStr r.2.preco])⟩ := by
      simp only [export_to_csv, hnorm, hid, if_true, List.map_map]
      refine congrArg₂ _ rfl (List.map_congr_left (fun r _ => rfl))
    rw [hexp, import_resolved_eq cy _ path [] _ resolvedCols_header5]
    have hrows : recs.map (fun r => [csvCell r.1, r.2.titulo, r.2.autor,
        pyIntStr r.2.ano, pyFloatStr r.2.preco]) =
        (recs.map (fun r => ([csvCell r.1, r.2.titulo, r.2.autor,
          pyIntStr r.2.ano, pyFloatStr r.2.preco], r.2))).map Prod.fst := by
      rw [List.map_map]
      rfl
    rw [hrows]
    rw [importLoop_all_ok _ _ [] 2
      (by
        intro p hp
        rw [List.mem_map] at hp
        obtain ⟨r, hr, hpr⟩ := hp
        subst hpr
        exact processRow_export5 cy r.2 (csvCell r.1) (hval r hr))
      (by intro p _ x hx; cases hx)
      (by
        rw [List.pairwise_map]
        exact hdist)]
    simp [List.map_map]
  · have hexp : export_to_csv (recs.map exportItem) =
        ⟨["titulo", "autor", "ano_publicacao", "preco"],
          recs.map (fun r => [r.2.titulo, r.2.autor,
            pyIntStr r.2.ano, pyFloatStr r.2.preco])⟩ := by
      simp only [export_to_csv, hnorm, hid, if_false, List.map_map]
      refine congrArg₂ _ rfl (List.map_congr_left (fun r _ => rfl))
    rw [hexp, import_resolved_eq cy _ path [] _ resolvedCols_header4]
    have hrows : recs.map (fun r => [r.2.titulo, r.2.autor,
        pyIntStr r.2.ano, pyFloatStr r.2.preco]) =
        (recs.map (fun r => ([r.2.titulo, r.2.autor,
          pyIntStr r.2.ano, pyFloatStr r.2.preco], r.2))).map Prod.fst := by
      rw [List.map_map]
      rfl
    rw [hrows]
    rw [importLoop_all_ok _ _ [] 2
      (by
        intro p hp
        rw [List.mem_map] at hp
        obtain ⟨r, hr, hpr⟩ := hp
        subst hpr
        exact processRow_export4 cy r.2 (hval r hr))
      (by intro p _ x hx; cases hx)
      (by
        rw [List.pairwise_map]
        exact hdist)]
    simp [List.map_map]

/-! ### Claim theorems -/

/-- C3 (counterexample evidence for the code bug): the Mapping arm of
`validators._normalize_row` loses the `author` synonym.  `KEY_MAP` maps
`author` to itself instead of to `autor` (against its own "unified
standard" comment, against `CSV_COLUMN_ALIASES`, and against the identical
table in `reporting.py`), so a mapping with the key `author` normalizes to
a row with `None` in the author position, while the canonical `autor` key
works. -/
theorem claim3_author_synonym_lost :
    validators_normalize_row_mapping [("author", .vstr "Machado de Assis")] =
      ⟨.vnone, .vnone, .vnone, .vnone, .vnone⟩ ∧
    keyMapGetD "author" = "author" ∧
    validators_normalize_row_mapping [("autor", .vstr "Machado de Assis")] =
      ⟨.vnone, .vnone, .vstr "Machado de Assis", .vnone, .vnone⟩ := by
  refine ⟨by decide, by decide, by decide⟩

/-- C10: `FileManager._normalize_row` resolves each canonical field with
Python `or` — truthiness, not key presence — so a falsy value under the
canonical key falls through to the synonym lookup: `preco: 0` yields a
`None` price, and an empty `titulo` next to `title: "X"` yields `"X"`. -/
theorem claim10_truthy_fallback :
    (∀ m : PyDict,
      ((dictGet m "titulo").truthy = false →
        (fm_normalize_row (.mapping m)).titulo = dictGet m "title") ∧
      ((dictGet m "autor").truthy = false →
        (fm_normalize_row (.mapping m)).autor = dictGet m "author") ∧
      ((dictGet m "preco").truthy = false →
        (fm_normalize_row (.mapping m)).preco = dictGet m "price")) ∧
    fm_normalize_row (.mapping [("preco", .vint 0)]) =
      ⟨.vnone, .vnone, .vnone, .vnone, .vnone⟩ ∧
    (fm_normalize_row (.mapping [("titulo", .vstr ""), ("title", .vstr "X")])).titulo =
      .vstr "X" := by
  refine ⟨?_, by decide, by decide⟩
  intro m
  refine ⟨?_, ?_, ?_⟩ <;> (intro h; simp [fm_normalize_row, pyOr, h])

theorem claim10_witness :
    (dictGet [("preco", PyVal.vint 0)] "titulo").truthy = false ∧
    (fm_normalize_row (.mapping [("preco", PyVal.vint 0)])).titulo =
      dictGet [("preco", PyVal.vint 0)] "title" :=
  ⟨by decide, (claim10_truthy_fallback.1 [("preco", PyVal.vint 0)]).1 (by decide)⟩

/-- C9 (counterexample): `export_to_csv` writes the price with plain
`str()`, so a stored price of 29.90 is rendered `"29.9"`, not `"29.90"` —
the claimed fixed 2-decimal rendering does not happen. -/
theorem claim9_counterexample :
    (export_to_csv [.seq [.vint 1, .vstr "A", .vstr "B", .vint 2000,
        .vrat (299 / 10)]]).rows = [["1", "A", "B", "2000", "29.9"]] ∧
    ("29.9" : String) ≠ "29.90" := by
  constructor
  · simp +decide [export_to_csv, fm_normalize_seq5, csvCell, pyStrRepr, pyIntStr,
      natToStr, natDigits, natDigitsAux, digitChar, pyFloatStr, pyFloatStrAbs, centsStr,
      fracChars, show (299 / 10 : ℚ) * 100 = 2990 by norm_num,
      show ¬((299 / 10 : ℚ) < 0) by norm_num]
  · decide

/-- C9 (amended): the exported price cell is Python `str(float)` — the
shortest decimal form, with trailing zeros dropped and at least one digit
after the point — not a fixed 2-decimal rendering: 29.90 prints as
`"29.9"`, 10 as `"10.0"`, 29.95 as `"29.95"`. -/
theorem claim9_amended_str_rendering :
    (∀ (idv : PyVal) (t a : String) (y : Int) (q : ℚ),
      (export_to_csv [.seq [idv, .vstr t, .vstr a, .vint y, .vrat q]]).rows =
        [if idv = .vnone then [t, a, pyIntStr y, pyFloatStr q]
         else [csvCell idv, t, a, pyIntStr y, pyFloatStr q]]) ∧
    pyFloatStr (299 / 10) = "29.9" ∧ pyFloatStr 10 = "10.0" ∧
    pyFloatStr (2995 / 100) = "29.95" := by
  refine ⟨?_, ?_, ?_, ?_⟩
  · intro idv t a y q
    by_cases hid : idv = PyVal.vnone
    · subst hid
      simp [export_to_csv, fm_normalize_seq5, csvCell_vstr, csvCell_vint, csvCell_vrat]
    · have hb : (idv != PyVal.vnone) = true := by simp [hid]
      simp [export_to_csv, fm_normalize_seq5, hb, hid, csvCell_vstr, csvCell_vint,
        csvCell_vrat]
  · simp +decide [pyFloatStr, pyFloatStrAbs, centsStr, fracChars, natToStr, natDigits,
      natDigitsAux, digitChar, show (299 / 10 : ℚ) * 100 = 2990 by norm_num,
      show ¬((299 / 10 : ℚ) < 0) by norm_num]
  · simp +decide [pyFloatStr, pyFloatStrAbs, centsStr, fracChars, natToStr, natDigits,
      natDigitsAux, digitChar, show (10 : ℚ) * 100 = 1000 by norm_num,
      show ¬((10 : ℚ) < 0) by norm_num]
  · simp +decide [pyFloatStr, pyFloatStrAbs, centsStr, fracChars, natToStr, natDigits,
      natDigitsAux, digitChar, show (2995 / 100 : ℚ) * 100 = 2995 by norm_num,
      show ¬((2995 / 100 : ℚ) < 0) by norm_num]

/-- C8: `export_to_csv` makes one global id decision over the whole list:
with any non-null id the header carries `id` and every row is the 5-cell
projection (null ids rendered as the empty cell), otherwise header and
every row are 4 cells — so the output is always rectangular. -/
theorem claim8_export_id_decision (books : List PyItem) :
    ((books.map fm_normalize_row).any (fun r => r.id != PyVal.vnone) = true →
      (export_to_csv books).header = ["id", "titulo", "autor", "ano_publicacao", "preco"] ∧
      (export_to_csv books).rows = (books.map fm_normalize_row).map
        (fun r => [csvCell r.id, csvCell r.titulo, csvCell r.autor, csvCell r.ano,
          csvCell r.preco])) ∧
    ((books.map fm_normalize_row).any (fun r => r.id != PyVal.vnone) = false →
      (export_to_csv books).header = ["titulo", "autor", "ano_publicacao", "preco"] ∧
      (export_to_csv books).rows = (books.map fm_normalize_row).map
        (fun r => [csvCell r.titulo, csvCell r.autor, csvCell r.ano, csvCell r.preco])) ∧
    (∀ row ∈ (export_to_csv books).rows, row.length = (export_to_csv books).header.length) ∧
    csvCell .vnone = "" := by
  refine ⟨?_, ?_, ?_, rfl⟩
  · intro h
    constructor
    · simp [export_to_csv, h]
    · simp [export_to_csv, h]
  · intro h
    constructor
    · simp [export_to_csv, h]
    · simp [export_to_csv, h]
  · intro row hrow
    simp only [export_to_csv] at hrow ⊢
    by_cases h : (books.map fm_normalize_row).any (fun r => r.id != PyVal.vnone)
    · simp only [h, if_true] at hrow ⊢
      rw [List.mem_map] at hrow
      obtain ⟨r, _, hr⟩ := hrow
      subst hr
      rfl
    · simp only [h, Bool.false_eq_true, if_false] at hrow ⊢
      rw [List.mem_map] at hrow
      obtain ⟨r, _, hr⟩ := hrow
      subst hr
      rfl

theorem claim8_witness :
    (([PyItem.seq [PyVal.vint 7, PyVal.vstr "A", PyVal.vstr "B", PyVal.vint 2000,
        PyVal.vrat 10]].map fm_normalize_row).any (fun r => r.id != PyVal.vnone) = true ∧
      (export_to_csv [PyItem.seq [PyVal.vint 7, PyVal.vstr "A", PyVal.vstr "B",
        PyVal.vint 2000, PyVal.vrat 10]]).header =
        ["id", "titulo", "autor", "ano_publicacao", "preco"]) ∧
    (([PyItem.seq [PyVal.vnone, PyVal.vstr "A", PyVal.vstr "B", PyVal.vint 2000,
        PyVal.vrat 10]].map fm_normalize_row).any (fun r => r.id != PyVal.vnone) = false ∧
      (export_to_csv [PyItem.seq [PyVal.vnone, PyVal.vstr "A", PyVal.vstr "B",
        PyVal.vint 2000, PyVal.vrat 10]]).header =
        ["titulo", "autor", "ano_publicacao", "preco"]) :=
  ⟨⟨by decide, ((claim8_export_id_decision _).1 (by decide)).1⟩,
   ⟨by decide, ((claim8_export_id_decision _).2.1 (by decide)).1⟩⟩

theorem eq_empty_of_data_nil (s : String) (h : s.data = []) : s = "" := by
  cases s with
  | mk data => subst h; rfl

theorem fixed2_zero : fixed2 0 = "0.00" := by
  have h1 : roundHalfEven ((0 : ℚ) * 100) = 0 := by
    rw [show (0 : ℚ) * 100 = ((0 : ℤ) : ℚ) by norm_num]
    simp only [roundHalfEven, Int.floor_intCast]
    norm_num
  have h2 : (roundHalfEven ((0 : ℚ) * 100)).toNat = 0 := by rw [h1]; rfl
  simp only [fixed2, h2]
  decide

theorem fixed2_million : fixed2 1000000 = "1000000.00" := by
  have h1 : roundHalfEven ((1000000 : ℚ) * 100) = 100000000 := by
    rw [show (1000000 : ℚ) * 100 = ((100000000 : ℤ) : ℚ) by norm_num]
    simp only [roundHalfEven, Int.floor_intCast]
    norm_num
  have h2 : (roundHalfEven ((1000000 : ℚ) * 100)).toNat = 100000000 := by rw [h1]; rfl
  simp only [fixed2, h2]
  decide

/-- C6: `validate_price` on a nonempty coerced string: drops internal
spaces; a comma with no period becomes the decimal point; an unparsable
result fails with the distinct "deve ser um número" message; a parsed
value below 0.00 or above 1000000.00 fails with the range messages; and an
in-range value comes back rounded to 2 decimals — in particular the string
`"29,90"` validates to 29.90. -/
theorem claim6_validate_price :
    (∀ s : String,
      (strContainsChar (stripSpacesStr s) ',' = true →
        strContainsChar (stripSpacesStr s) '.' = false →
        _normalize_decimal_str s = commaToDot (stripSpacesStr s)) ∧
      (strContainsChar (stripSpacesStr s) ',' = false ∨
          strContainsChar (stripSpacesStr s) '.' = true →
        _normalize_decimal_str s = stripSpacesStr s)) ∧
    (∀ (lbl : String) (v : PyVal), _coerce_str v ≠ "" →
      (parsePyFloat (_normalize_decimal_str (_coerce_str v)) = none →
        validate_price lbl v = .error (lbl ++ " deve ser um número (ex.: 35.90).")) ∧
      (∀ p : ℚ, parsePyFloat (_normalize_decimal_str (_coerce_str v)) = some p →
        (p < 0 → validate_price lbl v =
          .error (lbl ++ " deve ser maior ou igual a 0.00.")) ∧
        (1000000 < p → validate_price lbl v =
          .error (lbl ++ " não pode ser maior que 1000000.00.")) ∧
        (0 ≤ p → p ≤ 1000000 → validate_price lbl v = .ok (round2 p)))) ∧
    validate_price "Preço" (.vstr "29,90") = .ok (299 / 10) := by
  refine ⟨?_, ?_, ?_⟩
  · intro s
    constructor
    · intro h1 h2
      simp [_normalize_decimal_str, h1, h2]
    · intro h
      rcases h with h | h <;> simp [_normalize_decimal_str, h]
  · intro lbl v hne
    have hemp : (_coerce_str v).isEmpty = false := by
      apply isEmpty_false_of_data_ne
      intro hd
      exact hne (eq_empty_of_data_nil _ hd)
    refine ⟨?_, ?_⟩
    · intro hparse
      simp [validate_price, hemp, hparse]
    · intro p hp
      refine ⟨?_, ?_, ?_⟩
      · intro hlt
        simp only [validate_price, hemp, Bool.false_eq_true, if_false, hp, if_pos hlt,
          fixed2_zero]
        rw [String.append_assoc, String.append_assoc]
        congr 1
      · intro hgt
        have hnlt : ¬(p < 0) := by linarith
        simp only [validate_price, hemp, Bool.false_eq_true, if_false, hp, if_neg hnlt,
          if_pos hgt, fixed2_million]
        rw [String.append_assoc, String.append_assoc]
        congr 1
      · intro h0 h6
        have hnlt : ¬(p < 0) := not_lt.mpr h0
        have hngt : ¬((1000000 : ℚ) < p) := not_lt.mpr h6
        simp [validate_price, hemp, hp, hnlt, hngt]
  · simp +decide [validate_price, _coerce_str, pyStrRepr, pyStrip, pyStripChars,
      _normalize_decimal_str, stripSpacesStr, strContainsChar, commaToDot,
      parsePyFloat, parsePyFloatChars, parsePyFloatUnsigned, splitAtDot,
      parsePyNat, parseNatDigits, digitVal, isDigitChar, isPySpace]
    norm_num [round2, roundHalfEven]

theorem claim6_witness :
    validate_price "Preço" (.vstr "abc") =
      .error "Preço deve ser um número (ex.: 35.90)." :=
  (claim6_validate_price.2.1 "Preço" (.vstr "abc") (by decide)).1 (by decide)

/-- C7: `validate_year` fails on an empty coerced value; fails with the
distinct "deve ser um número inteiro" message on an unparsable string such
as `"abc"`; fails outside the inclusive range `[1400, currentYear + 1]`
(the current year being a call-time input); and otherwise returns the
parsed integer. -/
theorem claim7_validate_year :
    (∀ (cy : Int) (lbl : String) (v : PyVal), _coerce_str v = "" →
      validate_year cy lbl v = .error (lbl ++ " não pode ser vazio.")) ∧
    (∀ (cy : Int) (lbl : String) (v : PyVal), _coerce_str v ≠ "" →
      (parsePyInt (_coerce_str v) = none →
        validate_year cy lbl v = .error (lbl ++ " deve ser um número inteiro (ex.: 1999).")) ∧
      (∀ y : Int, parsePyInt (_coerce_str v) = some y →
        ((y < 1400 ∨ cy + 1 < y) → validate_year cy lbl v =
          .error (lbl ++ " deve estar entre " ++ "1400" ++ " e " ++ pyIntStr (cy + 1) ++ ".")) ∧
        (1400 ≤ y → y ≤ cy + 1 → validate_year cy lbl v = .ok y))) ∧
    validate_year 2026 "Ano de publicação" (.vstr "abc") =
      .error "Ano de publicação deve ser um número inteiro (ex.: 1999)." ∧
    ∃ pre post : String, "Ano de publicação deve ser um número inteiro (ex.: 1999)." =
      pre ++ "deve ser um número inteiro" ++ post := by
  refine ⟨?_, ?_, by decide, ⟨"Ano de publicação ", " (ex.: 1999).", by decide⟩⟩
  · intro cy lbl v h
    simp [validate_year, h, show ("" : String).isEmpty = true from by decide]
  · intro cy lbl v hne
    have hemp : (_coerce_str v).isEmpty = false := by
      apply isEmpty_false_of_data_ne
      intro hd
      exact hne (eq_empty_of_data_nil _ hd)
    refine ⟨?_, ?_⟩
    · intro hparse
      simp [validate_year, hemp, hparse]
    · intro y hy
      have hmin : pyIntStr (1400 : Int) = "1400" := by decide
      refine ⟨?_, ?_⟩
      · intro hout
        have hcond : y < 1400 ∨ cy + 1 < y := hout
        simp only [validate_year, hemp, Bool.false_eq_true, if_false, hy, if_pos hcond]
        rw [hmin]
      · intro h1 h2
        have hcond : ¬(y < 1400 ∨ cy + 1 < y) := by omega
        simp only [validate_year, hemp, Bool.false_eq_true, if_false, hy, if_neg hcond]

theorem claim7_witness :
    _coerce_str (PyVal.vstr "1899") ≠ "" ∧
    parsePyInt (_coerce_str (PyVal.vstr "1899")) = some 1899 ∧
    validate_year 2026 "Ano de publicação" (.vstr "1899") = .ok 1899 ∧
    validate_year 2026 "Ano de publicação" (.vstr "") =
      .error "Ano de publicação não pode ser vazio." :=
  ⟨by decide, by decide,
    ((claim7_validate_year.2.1 2026 "Ano de publicação" (.vstr "1899") (by decide)).2
      1899 (by decide)).2 (by decide) (by decide),
    claim7_validate_year.1 2026 "Ano de publicação" (.vstr "") (by decide)⟩

/-- C2: the row loop of `import_from_csv` (entered at line number 2, the
header being line 1) processes every row: a row whose body raises (a
`ValidationError` or anything else — `step` is arbitrary) adds exactly one
skip and one `Linha {n}: {message}` entry, the rest still run, and the
final counts satisfy `inserted + skipped = number of rows` with one error
message per skipped row, in row order.  The second part ties the loop to
`import_from_csv` whenever header resolution succeeds. -/
theorem claim2_row_resilience :
    (∀ (step : List String → Except String Book) (db : List Book)
        (rows : List (List String)),
      (importLoop step db rows 2).inserted + (importLoop step db rows 2).skipped
          = rows.length ∧
      (importLoop step db rows 2).errors = (numberFrom 2 rows).filterMap (fun p =>
        match step p.2 with
        | .error e => some ("Linha " ++ natToStr p.1 ++ ": " ++ e)
        | .ok _ => none) ∧
      (importLoop step db rows 2).skipped =
        rows.countP (fun row => !(isOkE (step row))) ∧
      (importLoop step db rows 2).errors.length = (importLoop step db rows 2).skipped) ∧
    ∀ (cy : Int) (f : CsvFile) (path : String) (db : List Book) (cols : Cols),
      resolvedCols (f.header.map pyStrip) = some cols →
      import_from_csv cy (some f) path db =
        importLoop (processRow cy f.header cols) db f.rows 2 := by
  constructor
  · intro step db rows
    obtain ⟨h1, h2, h3, h4, h5⟩ := importLoop_accounting step db rows 2
    exact ⟨h1, h2, h3, h5⟩
  · intro cy f path db cols h
    exact import_resolved_eq cy f path db cols h

theorem claim2_witness :
    import_from_csv 2026 (some ⟨["titulo", "autor", "ano_publicacao", "preco"],
        [["", "X", "1899", "10.0"]]⟩) "p" [] =
      importLoop (processRow 2026 ["titulo", "autor", "ano_publicacao", "preco"]
        ⟨"titulo", "autor", "ano_publicacao", "preco"⟩) [] [["", "X", "1899", "10.0"]] 2 ∧
    (importLoop (processRow 2026 ["titulo", "autor", "ano_publicacao", "preco"]
        ⟨"titulo", "autor", "ano_publicacao", "preco"⟩) [] [["", "X", "1899", "10.0"]]
      2).inserted +
      (importLoop (processRow 2026 ["titulo", "autor", "ano_publicacao", "preco"]
        ⟨"titulo", "autor", "ano_publicacao", "preco"⟩) [] [["", "X", "1899", "10.0"]]
      2).skipped = 1 :=
  ⟨claim2_row_resilience.2 2026 _ "p" [] _ (by decide),
   (claim2_row_resilience.1 _ [] _).1⟩

/-- C4: `import_from_csv` aborts whole, before touching any data row, in
exactly the two early cases: a missing file gives `(db, 0, 0)` with the
single error naming the path; failed header resolution gives `(db, 0, 0)`
with the single header error whose `Faltando` list holds only canonical
field names.  In every other case the row loop runs and accounts for every
row (`inserted + skipped = number of rows`). -/
theorem claim4_whole_operation_failures :
    (∀ (cy : Int) (path : String) (db : List Book),
      import_from_csv cy none path db =
        ⟨db, 0, 0, ["Arquivo não encontrado: " ++ path]⟩) ∧
    (∀ (cy : Int) (f : CsvFile) (path : String) (db : List Book),
      resolvedCols (f.header.map pyStrip) = none →
        import_from_csv cy (some f) path db =
          ⟨db, 0, 0, [headerErrorMsg (missingCols (f.header.map pyStrip))]⟩ ∧
        missingCols (f.header.map pyStrip) ≠ [] ∧
        ∀ x ∈ missingCols (f.header.map pyStrip),
          x ∈ ["titulo", "autor", "ano_publicacao", "preco"]) ∧
    (∀ (cy : Int) (f : CsvFile) (path : String) (db : List Book) (cols : Cols),
      resolvedCols (f.header.map pyStrip) = some cols →
        (import_from_csv cy (some f) path db).inserted +
          (import_from_csv cy (some f) path db).skipped = f.rows.length) := by
  refine ⟨fun cy path db => import_none_eq cy path db, ?_, ?_⟩
  · intro cy f path db h
    exact ⟨import_unresolved_eq cy f path db h,
      missingCols_ne_nil_of_unresolved _ h, missingCols_subset _⟩
  · intro cy f path db cols h
    rw [import_resolved_eq cy f path db cols h]
    exact (importLoop_accounting _ db f.rows 2).1

theorem claim4_witness :
    import_from_csv 2026 none "missing.csv" [] =
      ⟨[], 0, 0, ["Arquivo não encontrado: missing.csv"]⟩ ∧
    import_from_csv 2026 (some ⟨["titulo", "autor"], [["A", "B"]]⟩) "p" [] =
      ⟨[], 0, 0, [headerErrorMsg ["ano_publicacao", "preco"]]⟩ :=
  ⟨claim4_whole_operation_failures.1 2026 "missing.csv" [],
   (claim4_whole_operation_failures.2.1 2026 ⟨["titulo", "autor"], [["A", "B"]]⟩
     "p" [] (by decide)).1⟩

/-- C1 (counterexample): importing the same valid one-row file twice does
NOT give `inserted = 0` on the second run.  `import_from_csv` increments
`inserted` without looking at `add_book`'s 0/1 return, so the duplicate row
— silently ignored by the store — is still counted as inserted. -/
theorem claim1_counterexample :
    (import_from_csv 2026
      (some ⟨["titulo", "autor", "ano_publicacao", "preco"],
        [["Dom Casmurro", "Machado de Assis", "1899", "29.9"]]⟩) "livros.csv"
      (import_from_csv 2026
        (some ⟨["titulo", "autor", "ano_publicacao", "preco"],
          [["Dom Casmurro", "Machado de Assis", "1899", "29.9"]]⟩) "livros.csv"
        []).db).inserted = 1 := by
  have h1 : import_from_csv 2026
      (some ⟨["titulo", "autor", "ano_publicacao", "preco"],
        [["Dom Casmurro", "Machado de Assis", "1899", "29.9"]]⟩) "livros.csv" [] =
      ⟨[⟨"Dom Casmurro", "Machado de Assis", 1899, 299 / 10⟩], 1, 0, []⟩ := by
    simp +decide [import_from_csv, resolvedCols, pick, headersMapGet, importLoop,
      processRow, dictReaderGet, add_book, validate_text, validate_year,
      validate_price, _coerce_str, pyStrRepr, pyStrip, pyStripChars, pyLower, pyLowerChar,
      _normalize_decimal_str, stripSpacesStr, strContainsChar, commaToDot,
      parsePyFloat, parsePyFloatChars, parsePyFloatUnsigned, splitAtDot,
      parsePyNat, parseNatDigits, parsePyInt, parsePyIntChars, digitVal,
      isDigitChar, isPySpace, isPyWordChar, List.range, List.range.loop,
      Bind.bind, Except.bind, Except.instMonad, Pure.pure, Except.pure,
      natToStr, natDigits, natDigitsAux, digitChar]
    norm_num [round2, roundHalfEven]
  rw [h1]
  simp +decide [import_from_csv, resolvedCols, pick, headersMapGet, importLoop,
    processRow, dictReaderGet, add_book, validate_text, validate_year,
    validate_price, _coerce_str, pyStrRepr, pyStrip, pyStripChars, pyLower, pyLowerChar,
    _normalize_decimal_str, stripSpacesStr, strContainsChar, commaToDot,
    parsePyFloat, parsePyFloatChars, parsePyFloatUnsigned, splitAtDot,
    parsePyNat, parseNatDigits, parsePyInt, parsePyIntChars, digitVal,
    isDigitChar, isPySpace, isPyWordChar, List.range, List.range.loop,
    Bind.bind, Except.bind, Except.instMonad, Pure.pure, Except.pure,
    natToStr, natDigits, natDigitsAux, digitChar]
  norm_num [round2, roundHalfEven]

/-- C1 (amended): the storage layer is idempotent, but the orchestrator is
not signal-aware: re-importing a file whose rows all validate leaves the
store unchanged (every `add_book` returns the falsy duplicate signal), yet
the second run reports `inserted = N` and `skipped = 0`, because
`import_from_csv` counts a row as inserted whenever its processing raises
no exception, discarding `add_book`'s return value. -/
theorem claim1_amended_duplicate_run (cy : Int) (f : CsvFile) (path : String)
    (db0 : List Book) (cols : Cols)
    (hres : resolvedCols (f.header.map pyStrip) = some cols)
    (hok : ∀ row ∈ f.rows, ∃ b, processRow cy f.header cols row = .ok b) :
    (import_from_csv cy (some f) path
        (import_from_csv cy (some f) path db0).db).inserted = f.rows.length ∧
    (import_from_csv cy (some f) path
        (import_from_csv cy (some f) path db0).db).skipped = 0 ∧
    (import_from_csv cy (some f) path
        (import_from_csv cy (some f) path db0).db).db =
      (import_from_csv cy (some f) path db0).db := by
  rw [import_resolved_eq cy f path db0 cols hres,
    import_resolved_eq cy f path _ cols hres]
  have hdup : ∀ row ∈ f.rows, ∃ b, processRow cy f.header cols row = .ok b ∧
      keyMem (importLoop (processRow cy f.header cols) db0 f.rows 2).db b := by
    intro row hrow
    obtain ⟨b, hb⟩ := hok row hrow
    exact ⟨b, hb, importLoop_keyMem _ db0 f.rows 2 row hrow b hb⟩
  rw [importLoop_all_dup _ _ _ _ hdup]
  exact ⟨rfl, rfl, rfl⟩

theorem claim1_witness :
    (import_from_csv 2026
      (some ⟨["titulo", "autor", "ano_publicacao", "preco"],
        [["Quincas Borba", "Machado de Assis", "1891", "19.9"]]⟩) "q.csv"
      (import_from_csv 2026
        (some ⟨["titulo", "autor", "ano_publicacao", "preco"],
          [["Quincas Borba", "Machado de Assis", "1891", "19.9"]]⟩) "q.csv"
        []).db).inserted = 1 ∧
    (import_from_csv 2026
      (some ⟨["titulo", "autor", "ano_publicacao", "preco"],
        [["Quincas Borba", "Machado de Assis", "1891", "19.9"]]⟩) "q.csv"
      (import_from_csv 2026
        (some ⟨["titulo", "autor", "ano_publicacao", "preco"],
          [["Quincas Borba", "Machado de Assis", "1891", "19.9"]]⟩) "q.csv"
        []).db).skipped = 0 := by
  have h := claim1_amended_duplicate_run 2026
    ⟨["titulo", "autor", "ano_publicacao", "preco"],
      [["Quincas Borba", "Machado de Assis", "1891", "19.9"]]⟩ "q.csv" []
    ⟨"titulo", "autor", "ano_publicacao", "preco"⟩ (by decide)
    (by
      intro row hrow
      rw [List.mem_singleton] at hrow
      subst hrow
      refine ⟨⟨"Quincas Borba", "Machado de Assis", 1891, 199 / 10⟩, ?_⟩
      simp +decide [processRow, dictReaderGet, validate_text, validate_year,
        validate_price, _coerce_str, pyStrRepr, pyStrip, pyStripChars,
        _normalize_decimal_str, stripSpacesStr, strContainsChar, commaToDot,
        parsePyFloat, parsePyFloatChars, parsePyFloatUnsigned, splitAtDot,
        parsePyNat, parseNatDigits, parsePyInt, parsePyIntChars, digitVal,
        isDigitChar, isPySpace, isPyWordChar, List.range, List.range.loop,
        Bind.bind, Except.bind, Except.instMonad, Pure.pure, Except.pure]
      norm_num [round2, roundHalfEven])
  exact ⟨h.1, h.2.1⟩

/-- C5: round trip — exporting any list of validated canonical records
with pairwise-distinct `(titulo, autor, ano)` keys and importing the
produced file into an empty store yields every record inserted (N
inserted, zero skipped, no errors) and a store holding exactly the
original `(titulo, autor, ano, preco)` fields, in order, ignoring ids. -/
theorem claim5_roundtrip (cy : Int) (recs : List (PyVal × Book)) (path : String)
    (hval : ∀ r ∈ recs, ValidatedRec cy r.2)
    (hdist : recs.Pairwise (fun p q => ¬ bookKeyEq p.2 q.2)) :
    import_from_csv cy (some (export_to_csv (recs.map exportItem))) path [] =
      ⟨recs.map Prod.snd, recs.length, 0, []⟩ :=
  export_import_roundtrip cy recs path hval hdist

theorem claim5_witness :
    import_from_csv 2026
      (some (export_to_csv ([(PyVal.vnone, ⟨"A", "B", 2000, 10⟩),
        (PyVal.vnone, ⟨"C", "D", 2001, 299 / 10⟩)].map exportItem))) "rt.csv" [] =
      ⟨[⟨"A", "B", 2000, 10⟩, ⟨"C", "D", 2001, 299 / 10⟩], 2, 0, []⟩ := by
  have h := claim5_roundtrip 2026
    [(PyVal.vnone, ⟨"A", "B", 2000, 10⟩), (PyVal.vnone, ⟨"C", "D", 2001, 299 / 10⟩)]
    "rt.csv"
    (by
      intro r hr
      rw [List.mem_cons, List.mem_singleton] at hr
      rcases hr with hr | hr <;> subst hr <;>
        refine ⟨by decide, by decide, by norm_num, by norm_num, by norm_num,
          by norm_num, ?_⟩
      · rw [show ((10 : ℚ)) * 100 = ((1000 : ℤ) : ℚ) by norm_num]
        exact Rat.den_intCast 1000
      · rw [show ((299 / 10 : ℚ)) * 100 = ((2990 : ℤ) : ℚ) by norm_num]
        exact Rat.den_intCast 2990)
    (by
      refine List.Pairwise.cons ?_ (List.Pairwise.cons (by intro b hb; cases hb)
        List.Pairwise.nil)
      intro b hb
      rw [List.mem_singleton] at hb
      subst hb
      intro hk
      exact absurd hk.1 (by decide))
  exact h

end Livraria

